import Mathlib

/-!
# Verification of the Ovadare conflict pipeline

A shallow embedding of the Ovadare framework's conflict pipeline:
policy evaluation, conflict detection and storage
(`ovadare/conflicts/conflict_detector.py`), conflict resolution
(`ovadare/conflicts/conflict_resolver.py`), escalation
(`ovadare/escalation/escalation_manager.py`), event dispatch
(`ovadare/core/event_dispatcher.py`) and the framework's agent-action
handler (`ovadare/core/framework.py`).

Python dicts are modelled as insertion-ordered association lists,
exceptions as `Except`, and logging is dropped (it has no effect on the
observable state).  Components of the repository whose source files are
absent (`conflict.py`, `resolution.py`, `resolution_engine.py`,
`policy_manager.py`, `policy.py`) are modelled from the specification;
each such definition is marked `Modelled from the spec:` in its doc
comment.
-/

namespace Ovadare

/-- An agent action: an opaque structured record, modelled as a list of
key/value attribute pairs (Python `Dict[str, Any]`, restricted to string
values). -/
def Action : Type := List (String × String)

instance : DecidableEq Action := by unfold Action; infer_instance

instance : Repr Action := by unfold Action; infer_instance

/-- Modelled from the spec: `ovadare/policies/policy.py` is absent from
the source tree.  The result of evaluating one action against one
policy: a boolean `compliant` plus an optional human-readable `message`
(spec section 3).  Matches the shape of `EvaluationResult` in
`ovadare/core/base_classes.py`. -/
structure EvaluationResult where
  compliant : Bool
  message : Option String
deriving DecidableEq, Repr

/-- Modelled from the spec: `ovadare/policies/policy.py` is absent from
the source tree.  A policy has an identity, a priority and an evaluation
capability; evaluation of one policy may fail internally, which the
policy manager catches (spec section 4.1).  The store keeps policies in
evaluation order (descending priority, ties by registration order). -/
structure Policy where
  policy_id : String
  priority : Int
  evaluate : Action → Except String EvaluationResult

/-- A policy-manager evaluation row: the evaluation result together with
the id of the policy that produced it.  `ConflictDetector.detect` reads
`result.message` and `result.policy_id` from the items returned by
`evaluate_policies`, so the manager attaches the policy id. -/
structure PMResult where
  compliant : Bool
  message : Option String
  policy_id : String
deriving DecidableEq, Repr

/-- Modelled from the spec: `ovadare/policies/policy_manager.py` is
absent from the source tree.  `evaluate_policies` evaluates every
registered policy against the action, one result per policy, in the
store's order; an individual policy that raises is caught and treated as
non-compliant with a synthetic message, never aborting the remaining
evaluations (spec section 4.1). -/
def evaluate_policies (policies : List Policy) (action : Action) : List PMResult :=
  policies.map fun p =>
    match p.evaluate action with
    | Except.ok r => { compliant := r.compliant, message := r.message, policy_id := p.policy_id }
    | Except.error e =>
        { compliant := false
          message := some ("Policy evaluation error: " ++ e)
          policy_id := p.policy_id }

/-- Modelled from the spec: `ovadare/conflicts/conflict.py` is absent
from the source tree.  A detected conflict, per spec section 3: a fresh
unique `conflict_id` generated on creation, the offending agent and
action, the violated policy's id, and the violation details.  (Severity
and timestamp carry no behaviour in the claims and are omitted.) -/
structure Conflict where
  conflict_id : String
  related_agent_id : String
  action : Action
  violation_details : Option String
  policy_id : String
deriving DecidableEq, Repr

/-- Modelled from the spec: fresh conflict identity.  The spec says the
`conflict_id` is generated on creation and unique; the detector state
threads a counter for this. -/
def mkConflict (n : Nat) (agent_id : String) (action : Action)
    (message : Option String) (policy_id : String) : Conflict :=
  { conflict_id := "conflict-" ++ toString n
    related_agent_id := agent_id
    action := action
    violation_details := message
    policy_id := policy_id }

/-! ## The conflict dictionary

`ConflictDetector._conflicts` is a Python `Dict[str, Conflict]`:
an insertion-ordered map.  Assignment `d[k] = v` replaces in place when
the key is present and appends otherwise; `del d[k]` removes the entry;
`list(d.values())` copies the values in insertion order. -/

/-- Python `d.get(k)`: the value stored under the first matching key. -/
def dictGet (m : List (String × Conflict)) (k : String) : Option Conflict :=
  match m with
  | [] => none
  | (k', v) :: rest => if k' = k then some v else dictGet rest k

/-- Python `k in d`. -/
def dictContains (m : List (String × Conflict)) (k : String) : Bool :=
  m.any fun p => p.1 = k

/-- Python `d[k] = v`: replace in place when present, append otherwise. -/
def dictInsert (m : List (String × Conflict)) (k : String) (v : Conflict) :
    List (String × Conflict) :=
  if dictContains m k then
    m.map fun p => if p.1 = k then (k, v) else p
  else
    m ++ [(k, v)]

/-- Python `del d[k]`. -/
def dictRemove (m : List (String × Conflict)) (k : String) : List (String × Conflict) :=
  m.filter fun p => p.1 ≠ k

/-- Python `list(d.values())`: the values in insertion order. -/
def dictValues (m : List (String × Conflict)) : List Conflict :=
  m.map Prod.snd

/-! ## ConflictDetector (`ovadare/conflicts/conflict_detector.py`) -/

/-- The mutable state of a `ConflictDetector`: its policy manager's
registered policies, the `_conflicts` dict, and the counter backing
fresh conflict-id generation. -/
structure DetectorState where
  policies : List Policy
  conflicts : List (String × Conflict)
  nextId : Nat

/-- The loop body of `ConflictDetector.detect`: for each evaluation
result, when `not result` (i.e. the result is non-compliant, via
`EvaluationResult.__bool__`), construct a `Conflict`, store it under its
`conflict_id`, and append it to the returned list. -/
def detectLoop (agent_id : String) (action : Action) :
    List PMResult → DetectorState → List Conflict → DetectorState × List Conflict
  | [], st, acc => (st, acc)
  | r :: rest, st, acc =>
    if r.compliant then
      detectLoop agent_id action rest st acc
    else
      let c := mkConflict st.nextId agent_id action r.message r.policy_id
      detectLoop agent_id action rest
        { st with
          conflicts := dictInsert st.conflicts c.conflict_id c
          nextId := st.nextId + 1 }
        (acc ++ [c])

/-- `ConflictDetector.detect`: evaluate the action against the policies
and turn every non-compliant result into a stored `Conflict`.  The
Python body is wrapped in a `try`/`except` that logs and falls through
to `return conflicts`; no expression in the translated body can raise,
so the embedding is total. -/
def detect (st : DetectorState) (agent_id : String) (action : Action) :
    DetectorState × List Conflict :=
  detectLoop agent_id action (evaluate_policies st.policies action) st []

/-- `ConflictDetector.get_conflict_by_id`. -/
def get_conflict_by_id (st : DetectorState) (conflict_id : String) : Option Conflict :=
  dictGet st.conflicts conflict_id

/-- `ConflictDetector.get_all_conflicts` (the value returned):
`list(self._conflicts.values())`, a fresh list of the stored conflicts
in insertion order. -/
def get_all_conflicts (st : DetectorState) : List Conflict :=
  dictValues st.conflicts

/-- `ConflictDetector.resolve_conflict`: delete the entry when present,
otherwise log a warning and do nothing. -/
def resolve_conflict (st : DetectorState) (conflict_id : String) : DetectorState :=
  if dictContains st.conflicts conflict_id then
    { st with conflicts := dictRemove st.conflicts conflict_id }
  else
    st

/-- `ConflictDetector.clear_conflicts`. -/
def clear_conflicts (st : DetectorState) : DetectorState :=
  { st with conflicts := [] }

/-! ## Resolution pipeline

`ovadare/conflicts/conflict_resolver.py` is in the source tree: it calls
the engine's `generate_resolutions`, then `apply_resolutions`, and
returns the resolutions.  The engine itself
(`ovadare/conflicts/resolution_engine.py`) is absent and is modelled
from spec sections 4.4 and 4.5. -/

/-- Modelled from the spec: `ovadare/conflicts/resolution.py` is absent
from the source tree.  A `Resolution` addresses one conflict; its
`apply()` capability reports success or failure, recorded here as the
outcome `applyOk` it will report. -/
structure Resolution where
  resolution_id : String
  conflict_id : String
  actions : List String
  applyOk : Bool
deriving DecidableEq, Repr

/-- Modelled from the spec: a pluggable resolution strategy keyed by
policy id (spec section 4.4); it supplies the remediation actions for a
conflict and whether applying the produced resolution succeeds. -/
structure Strategy where
  actions : Conflict → List String
  applySucceeds : Conflict → Bool

/-- Modelled from the spec: the `ResolutionEngine`'s pluggable strategy
map from policy identity to strategy capability. -/
structure Engine where
  strategies : List (String × Strategy)

/-- Strategy lookup by the conflict's violated policy id. -/
def findStrategy (eng : Engine) (policy_id : String) : Option Strategy :=
  (eng.strategies.find? fun p => p.1 = policy_id).map Prod.snd

/-- Modelled from the spec: `ResolutionEngine.generate_resolutions`
attempts one Resolution per input Conflict, looking up a strategy by the
conflict's violated policy id; when no strategy is registered for that
policy, generation fails for that specific conflict (no resolution
produced) rather than aborting the batch (spec section 4.4). -/
def generate_resolutions (eng : Engine) (conflicts : List Conflict) : List Resolution :=
  conflicts.filterMap fun c =>
    (findStrategy eng c.policy_id).map fun s =>
      { resolution_id := "res-" ++ c.conflict_id
        conflict_id := c.conflict_id
        actions := s.actions c
        applyOk := s.applySucceeds c }

/-- Outcome of applying one resolution (spec section 4.4: Applied or
Failed with a reason). -/
inductive ApplyOutcome where
  | applied (resolution_id : String)
  | failed (resolution_id : String) (reason : String)
deriving DecidableEq, Repr

/-- Modelled from the spec: `ResolutionEngine.apply_resolutions` applies
each resolution independently; one failure never blocks the others
(spec section 4.4). -/
def apply_resolutions (resolutions : List Resolution) : List ApplyOutcome :=
  resolutions.map fun r =>
    if r.applyOk then ApplyOutcome.applied r.resolution_id
    else ApplyOutcome.failed r.resolution_id "apply failed"

/-- The conflict ids whose resolution was generated and successfully
applied. -/
def resolvedIds (resolutions : List Resolution) : List String :=
  (resolutions.filter fun r => r.applyOk).map fun r => r.conflict_id

/-- `ConflictResolver.resolve_conflicts` composed with the
spec-modelled engine: generate resolutions, apply them, and — modelled
from spec sections 4.4/4.5, the engine and its escalation signalling
being absent from the source tree — remove each successfully resolved
conflict from the registry and signal escalation once for each conflict
that ends the call unresolved.  Returns the new registry state, the
generated resolutions (the value the source's `resolve_conflicts`
returns), and the list of escalated conflict ids. -/
def resolve_conflicts (eng : Engine) (st : DetectorState) (conflicts : List Conflict) :
    DetectorState × List Resolution × List String :=
  let resolutions := generate_resolutions eng conflicts
  let resolved := resolvedIds resolutions
  let st' := resolved.foldl resolve_conflict st
  let escalated :=
    (conflicts.filter fun c => !(resolved.contains c.conflict_id)).map fun c => c.conflict_id
  (st', resolutions, escalated)

/-! ## EscalationManager (`ovadare/escalation/escalation_manager.py`) -/

/-- The configuration the escalation manager reads:
`Configuration.get('escalation_method', 'email')` and
`Configuration.get('escalation_recipients', [])`. -/
structure EscalationConfig where
  escalation_method : String
  escalation_recipients : List String

/-- What `EscalationManager.escalate_conflict` did: returned early for
want of recipients, dispatched via a channel, or logged an unsupported
method. -/
inductive EscalationOutcome where
  | noRecipients
  | sentEmail (recipients : List String) (message : String)
  | sentSms (recipients : List String) (message : String)
  | unsupportedMethod (method : String)
deriving DecidableEq, Repr

/-- `EscalationManager._prepare_escalation_message` (timestamp omitted:
the embedded `Conflict` carries none). -/
def prepare_escalation_message (c : Conflict) : String :=
  "Conflict ID: " ++ c.conflict_id ++ "\n" ++
  "Agent ID: " ++ c.related_agent_id ++ "\n" ++
  "Policy ID: " ++ c.policy_id ++ "\n" ++
  "Violation Details: " ++ (c.violation_details.getD "None") ++ "\n"

/-- `EscalationManager.escalate_conflict`: read the configured method
and recipients; with no recipients, log a warning and return; otherwise
prepare the message and dispatch by method, logging an error for an
unsupported method.  The whole body sits in a `try`/`except` that logs
and swallows; no translated expression raises, so every path is
`Except.ok`. -/
def escalate_conflict (cfg : EscalationConfig) (c : Conflict) :
    Except String EscalationOutcome :=
  if cfg.escalation_recipients = [] then
    Except.ok EscalationOutcome.noRecipients
  else
    let message := prepare_escalation_message c
    if cfg.escalation_method = "email" then
      Except.ok (EscalationOutcome.sentEmail cfg.escalation_recipients message)
    else if cfg.escalation_method = "sms" then
      Except.ok (EscalationOutcome.sentSms cfg.escalation_recipients message)
    else
      Except.ok (EscalationOutcome.unsupportedMethod cfg.escalation_method)

/-! ## EventDispatcher (`ovadare/core/event_dispatcher.py`)

A listener is a callback invoked with the event data; it may mutate
shared state and may raise.  We model a listener over a world type `W`
as a function returning the world it leaves behind together with the
exception it raised, if any (a Python listener's side effects up to the
raise persist). -/

/-- A registered event listener: its effect on the world and the
exception it raises, if any. -/
structure Listener (W : Type) where
  run : W → W × Option String

/-- The dispatcher's `_listeners` registry: event type → listeners in
registration order. -/
structure Dispatcher (W : Type) where
  listeners : List (String × List (Listener W))

/-- `self._listeners.get(event_type, [])`. -/
def getListeners {W : Type} (d : Dispatcher W) (event_type : String) : List (Listener W) :=
  ((d.listeners.find? fun p => p.1 = event_type).map Prod.snd).getD []

/-- The dispatch loop of `EventDispatcher.dispatch_event`: invoke each
listener in turn; a raising listener's exception is caught and logged
(collected here), and the loop continues with the world the listener
left behind. -/
def dispatchLoop {W : Type} (ls : List (Listener W)) (w : W) (errs : List String) :
    W × List String :=
  match ls with
  | [] => (w, errs)
  | l :: rest =>
    match l.run w with
    | (w', none) => dispatchLoop rest w' errs
    | (w', some e) => dispatchLoop rest w' (errs ++ [e])

/-- `EventDispatcher.dispatch_event`: copy the listener list for the
event type; with no listeners, log and return; otherwise run the loop.
Each listener call sits in its own `try`/`except`, so no exception
escapes `dispatch_event` — every path is `Except.ok`.  Returns the final
world and the exceptions caught from listeners. -/
def dispatch_event {W : Type} (d : Dispatcher W) (event_type : String) (w : W) :
    Except String (W × List String) :=
  let ls := getListeners d event_type
  if ls.isEmpty then
    Except.ok (w, [])
  else
    Except.ok (dispatchLoop ls w [])

/-! ## Framework agent-action handler (`ovadare/core/framework.py`) -/

/-- Python truthiness of `event_data.get('agent_id')`: absent keys give
`None` (falsy); the empty string is falsy. -/
def truthyStr (v : Option String) : Bool :=
  match v with
  | none => false
  | some s => s ≠ ""

/-- Python truthiness of `event_data.get('action')`: `None` and the
empty dict are falsy. -/
def truthyAction (v : Option Action) : Bool :=
  match v with
  | none => false
  | some a => a ≠ ([] : List (String × String))

/-- `OvadareFramework._handle_agent_action` (framework.py lines
104–122): read `agent_id` and `action` from the event data; when either
is falsy, log an error and return (no detection, nothing dispatched).
Otherwise run `detect`; when conflicts were found the handler then
executes `self.event_dispatcher.dispatch('conflict_detected', ...)`,
but `EventDispatcher` defines no `dispatch` method (only
`dispatch_event`), so the attribute lookup raises `AttributeError`,
which propagates to the handler's caller.  The detector object is
shared state, so the conflicts `detect` already inserted persist across
the raise.  Returns the detector state together with the call's outcome
(`Except.ok ()` for a normal return, `Except.error` for the raised
exception). -/
def handle_agent_action (st : DetectorState) (agent_id : Option String)
    (action : Option Action) : DetectorState × Except String Unit :=
  if ¬ truthyStr agent_id ∨ ¬ truthyAction action then
    (st, Except.ok ())
  else if (detect st (agent_id.getD "") (action.getD [])).2 ≠ [] then
    ((detect st (agent_id.getD "") (action.getD [])).1,
      Except.error "AttributeError: EventDispatcher has no attribute dispatch")
  else
    ((detect st (agent_id.getD "") (action.getD [])).1, Except.ok ())

/-! ## Snapshot semantics of `get_all_conflicts`

`get_all_conflicts` returns `list(self._conflicts.values())` — a fresh
list object.  To state that later mutation of the detector leaves a
previously returned list unchanged, we model returned lists as
heap-allocated objects: a session pairs the detector state with a heap
of the lists handed out so far, and enumeration allocates a new cell. -/

/-- A session: the detector plus the heap of lists `get_all_conflicts`
has returned. -/
structure Session where
  det : DetectorState
  heap : List (List Conflict)

/-- A reference to a returned list. -/
def readList (s : Session) (r : Nat) : Option (List Conflict) :=
  s.heap[r]?

/-- `get_all_conflicts` at the session level: allocate a fresh list
holding a copy of the current values and return a reference to it. -/
def get_all_conflicts_session (s : Session) : Session × Nat :=
  ({ s with heap := s.heap ++ [get_all_conflicts s.det] }, s.heap.length)

/-- The detector's mutating operations, as session steps. -/
inductive MutOp where
  | opDetect (agent_id : String) (action : Action)
  | opResolve (conflict_id : String)
  | opClear

/-- Apply a mutating operation to the session: each operation reads and
writes the detector's `_conflicts` dict only; none touches a list
previously returned by `get_all_conflicts`. -/
def applyMut (s : Session) : MutOp → Session
  | MutOp.opDetect agent_id action => { s with det := (detect s.det agent_id action).1 }
  | MutOp.opResolve conflict_id => { s with det := resolve_conflict s.det conflict_id }
  | MutOp.opClear => { s with det := clear_conflicts s.det }

/-! ## Auxiliary observation functions -/

/-- Number of occurrences of `k` in a list of ids: how often a given
conflict id appears in the escalation record. -/
def countOcc (l : List String) (k : String) : Nat :=
  l.countP fun x => x = k

/-- The exceptions the dispatch loop catches, in order: each listener
runs on the world its predecessors left, and contributes its raised
exception, if any. -/
def raisedErrs {W : Type} : List (Listener W) → W → List String
  | [], _ => []
  | l :: rest, w => (l.run w).2.toList ++ raisedErrs rest (l.run w).1

/-- The world after every listener has run, each on the world left by
its predecessor (raising or not). -/
def worldAfter {W : Type} (ls : List (Listener W)) (w : W) : W :=
  ls.foldl (fun x l => (l.run x).1) w

/-! ## Concrete sample objects (used by witnesses) -/

/-- A policy every action complies with. -/
def samplePolicyOk : Policy :=
  { policy_id := "p-ok", priority := 10, evaluate := fun _ => Except.ok ⟨true, none⟩ }

/-- A policy that flags `write_data` actions as non-compliant. -/
def samplePolicyBad : Policy :=
  { policy_id := "p-bad", priority := 5
    evaluate := fun a =>
      if a.lookup "kind" = some "write_data" then Except.ok ⟨false, some "write forbidden"⟩
      else Except.ok ⟨true, none⟩ }

/-- A sample offending action. -/
def sampleAction : Action := [("kind", "write_data")]

/-- A sample compliant action. -/
def sampleActionRead : Action := [("kind", "read_data")]

/-- A sample stored conflict. -/
def sampleConflict : Conflict :=
  { conflict_id := "c-1", related_agent_id := "agent-1", action := sampleAction
    violation_details := some "write forbidden", policy_id := "p-bad" }

/-- A second conflict sharing `sampleConflict`'s id, with different
details. -/
def sampleConflictClash : Conflict :=
  { conflict_id := "c-1", related_agent_id := "agent-2", action := sampleActionRead
    violation_details := some "other", policy_id := "p-ok" }

/-- A detector state with one compliant-by-default and one violated
policy and an empty store. -/
def sampleDetector : DetectorState :=
  { policies := [samplePolicyOk, samplePolicyBad], conflicts := [], nextId := 0 }

/-- A detector state holding `sampleConflict`. -/
def sampleDetectorLoaded : DetectorState :=
  { policies := [samplePolicyOk, samplePolicyBad]
    conflicts := [(sampleConflict.conflict_id, sampleConflict)], nextId := 1 }

/-- An engine with no registered strategies. -/
def sampleEngineEmpty : Engine := { strategies := [] }

/-- An escalation configuration with recipients but an unsupported
method. -/
def sampleCfgPigeon : EscalationConfig :=
  { escalation_method := "carrier-pigeon", escalation_recipients := ["admin@example.com"] }

/-- An escalation configuration with no recipients. -/
def sampleCfgNobody : EscalationConfig :=
  { escalation_method := "email", escalation_recipients := [] }

/-- A listener on worlds `Nat` that increments and raises. -/
def sampleListenerRaise : Listener Nat := { run := fun n => (n + 1, some "boom") }

/-- A listener on worlds `Nat` that doubles and returns normally. -/
def sampleListenerDouble : Listener Nat := { run := fun n => (n * 2, none) }

/-- A dispatcher with two listeners (the first raising) registered for
`"agent_action"` and nothing else. -/
def sampleDispatcher : Dispatcher Nat :=
  { listeners := [("agent_action", [sampleListenerRaise, sampleListenerDouble])] }

/-! # Theorems

## Dictionary lemmas -/

/-- The dict membership test, phrased as an existence statement. -/
theorem dictContains_iff (m : List (String × Conflict)) (k : String) :
    dictContains m k = true ↔ ∃ p ∈ m, p.1 = k := by
  simp [dictContains, List.any_eq_true]

/-- Looking up the key just assigned yields the assigned value,
whether the assignment replaced or appended. -/
theorem dictGet_dictInsert_self (k : String) (v : Conflict) :
    ∀ m : List (String × Conflict), dictGet (dictInsert m k v) k = some v := by
  have hrep : ∀ m : List (String × Conflict), dictContains m k = true →
      dictGet (m.map fun p => if p.1 = k then (k, v) else p) k = some v := by
    intro m
    induction m with
    | nil => intro h; simp [dictContains] at h
    | cons p rest ih =>
      intro h
      rw [List.map_cons]
      by_cases hk : p.1 = k
      · rw [if_pos hk]
        simp [dictGet]
      · rw [if_neg hk]
        have hrest : dictContains rest k = true := by
          rcases (dictContains_iff _ _).mp h with ⟨q, hq, hqk⟩
          rcases List.mem_cons.mp hq with rfl | hq'
          · exact absurd hqk hk
          · exact (dictContains_iff _ _).mpr ⟨q, hq', hqk⟩
        simp [dictGet, hk]
        exact ih hrest
  have happ : ∀ m : List (String × Conflict), dictContains m k = false →
      dictGet (m ++ [(k, v)]) k = some v := by
    intro m
    induction m with
    | nil => intro _; simp [dictGet]
    | cons p rest ih =>
      intro h
      have hk : ¬ p.1 = k := by
        intro hpk
        rw [(dictContains_iff _ _).mpr ⟨p, List.mem_cons_self p rest, hpk⟩] at h
        exact Bool.true_eq_false.mp h
      have hrest : dictContains rest k = false := by
        cases hr : dictContains rest k
        · rfl
        · exfalso
          rcases (dictContains_iff _ _).mp hr with ⟨q, hq, hqk⟩
          rw [(dictContains_iff _ _).mpr ⟨q, List.mem_cons_of_mem p hq, hqk⟩] at h
          exact Bool.true_eq_false.mp h
      rw [List.cons_append]
      simp [dictGet, hk]
      exact ih hrest
  intro m
  unfold dictInsert
  by_cases h : dictContains m k
  · rw [if_pos h]; exact hrep m h
  · rw [if_neg h]; exact happ m (by simpa using h)

/-- Removing one key leaves lookups of any other key unchanged. -/
theorem dictGet_dictRemove_ne (i k : String) (hik : i ≠ k) :
    ∀ m : List (String × Conflict), dictGet (dictRemove m i) k = dictGet m k := by
  intro m
  induction m with
  | nil => rfl
  | cons p rest ih =>
    unfold dictRemove
    rw [List.filter_cons]
    by_cases hp : p.1 = i
    · have hpk : ¬ p.1 = k := by rw [hp]; exact hik
      rw [if_neg (by simp [hp])]
      simp [dictGet, hpk]
      simpa [dictRemove] using ih
    · rw [if_pos (by simp [hp])]
      by_cases hpk : p.1 = k
      · simp [dictGet, hpk]
      · simp [dictGet, hpk]
        simpa [dictRemove] using ih

/-- Absent keys: a `none` lookup means the dict does not contain the
key. -/
theorem dictContains_eq_false_of_dictGet_none (k : String) :
    ∀ m : List (String × Conflict), dictGet m k = none → dictContains m k = false := by
  intro m
  induction m with
  | nil => intro _; rfl
  | cons p rest ih =>
    intro h
    by_cases hp : p.1 = k
    · simp [dictGet, hp] at h
    · simp [dictGet, hp] at h
      cases hc : dictContains (p :: rest) k
      · rfl
      · rcases (dictContains_iff _ _).mp hc with ⟨q, hq, hqk⟩
        rcases List.mem_cons.mp hq with rfl | hq'
        · exact absurd hqk hp
        · rw [(dictContains_iff _ _).mpr ⟨q, hq', hqk⟩] at ih
          exact absurd (ih h) (by simp)

/-- Assignment preserves distinctness of the stored keys: replacement
keeps the key list unchanged, and an append adds a key that was
absent. -/
theorem dictInsert_keys_nodup (k : String) (v : Conflict) :
    ∀ m : List (String × Conflict), (m.map Prod.fst).Nodup →
      ((dictInsert m k v).map Prod.fst).Nodup := by
  have hkeys : ∀ m : List (String × Conflict),
      ((m.map fun p => if p.1 = k then (k, v) else p).map Prod.fst) = m.map Prod.fst := by
    intro m
    induction m with
    | nil => rfl
    | cons p rest ih =>
      rw [List.map_cons, List.map_cons, List.map_cons]
      by_cases hp : p.1 = k
      · rw [if_pos hp, ih, hp]
      · rw [if_neg hp, ih]
  intro m h
  unfold dictInsert
  by_cases hc : dictContains m k
  · rw [if_pos hc, hkeys]; exact h
  · rw [if_neg hc]
    have hk : k ∉ m.map Prod.fst := by
      intro hmem
      rcases List.mem_map.mp hmem with ⟨p, hp, hpk⟩
      exact hc ((dictContains_iff _ _).mpr ⟨p, hp, hpk⟩)
    rw [List.map_append]
    rw [List.nodup_append]
    refine ⟨h, List.nodup_singleton k, ?_⟩
    intro x hx hx2
    simp only [List.map_cons, List.map_nil, List.mem_singleton] at hx2
    subst hx2
    exact hk hx

/-! ## Detection lemmas -/

/-- A run of compiant results leaves the detect loop's state and
accumulator untouched. -/
theorem detectLoop_all_compliant (a : String) (act : Action) :
    ∀ (rs : List PMResult) (st : DetectorState) (acc : List Conflict),
      (∀ r ∈ rs, r.compliant = true) → detectLoop a act rs st acc = (st, acc) := by
  intro rs
  induction rs with
  | nil => intro st acc _; rfl
  | cons r rest ih =>
    intro st acc h
    have hr : r.compliant = true := h r (List.mem_cons_self r rest)
    rw [detectLoop, if_pos hr]
    exact ih st acc fun x hx => h x (List.mem_cons_of_mem r hx)

/-- When the results hold exactly one non-compliant entry, the detect
loop stores exactly one conflict, built from that entry at the incoming
counter, and appends it to the accumulator. -/
theorem detectLoop_single (a : String) (act : Action) (r : PMResult) :
    ∀ (rs : List PMResult) (st : DetectorState) (acc : List Conflict),
      rs.filter (fun x => !x.compliant) = [r] →
      detectLoop a act rs st acc =
        ({ st with
            conflicts := dictInsert st.conflicts
              (mkConflict st.nextId a act r.message r.policy_id).conflict_id
              (mkConflict st.nextId a act r.message r.policy_id)
            nextId := st.nextId + 1 },
         acc ++ [mkConflict st.nextId a act r.message r.policy_id]) := by
  intro rs
  induction rs with
  | nil => intro st acc h; simp at h
  | cons r0 rest ih =>
    intro st acc h
    rw [List.filter_cons] at h
    by_cases hc : r0.compliant
    · rw [if_neg (by simp [hc])] at h
      rw [detectLoop, if_pos hc]
      exact ih st acc h
    · have hc' : r0.compliant = false := Bool.not_eq_true _ ▸ (by simpa using hc)
      rw [if_pos (by simp [hc'])] at h
      have h1 : r0 = r := (List.cons_eq_cons.mp h).1
      have h2 : rest.filter (fun x => !x.compliant) = [] := (List.cons_eq_cons.mp h).2
      have hall : ∀ x ∈ rest, x.compliant = true := by
        intro x hx
        by_contra hx2
        have hxf : x ∈ rest.filter (fun x => !x.compliant) :=
          List.mem_filter.mpr ⟨hx, by simp [Bool.not_eq_true _ ▸ (by simpa using hx2 : ¬ x.compliant = true)]⟩
        rw [h2] at hxf
        exact absurd hxf (List.not_mem_nil x)
      subst h1
      rw [detectLoop, if_neg (by simp [hc'])]
      exact detectLoop_all_compliant a act rest _ _ hall

/-- Every evaluation row's `policy_id` is the id of one of the store's
policies. -/
theorem evaluate_policies_policy_id (policies : List Policy) (act : Action) (r : PMResult)
    (hr : r ∈ evaluate_policies policies act) :
    ∃ p ∈ policies, r.policy_id = p.policy_id := by
  unfold evaluate_policies at hr
  rcases List.mem_map.mp hr with ⟨p, hp, hpr⟩
  refine ⟨p, hp, ?_⟩
  rw [← hpr]
  cases p.evaluate act with
  | ok v => rfl
  | error e => rfl

/-! ## Claim theorems -/

/-- C1: for every action whose policy evaluation yields exactly one
non-compliant result, `ConflictDetector.detect` returns exactly one
`Conflict`; its `policy_id` is the violated policy's id (the id attached
to the non-compliant row, which is the id of one of the registered
policies), its `related_agent_id` is the supplied agent id, and the
conflict is stored in the detector's conflict dict under its
`conflict_id`. -/
theorem detect_single_violation (st : DetectorState) (agent_id : String) (action : Action)
    (r : PMResult)
    (h : (evaluate_policies st.policies action).filter (fun x => !x.compliant) = [r]) :
    ∃ c : Conflict,
      (detect st agent_id action).2 = [c] ∧
      c.policy_id = r.policy_id ∧
      c.related_agent_id = agent_id ∧
      dictGet (detect st agent_id action).1.conflicts c.conflict_id = some c ∧
      ∃ p ∈ st.policies, r.policy_id = p.policy_id := by
  refine ⟨mkConflict st.nextId agent_id action r.message r.policy_id, ?_, rfl, rfl, ?_, ?_⟩
  · unfold detect
    rw [detectLoop_single agent_id action r _ st [] h]
    rfl
  · unfold detect
    rw [detectLoop_single agent_id action r _ st [] h]
    exact dictGet_dictInsert_self _ _ _
  · have hr : r ∈ evaluate_policies st.policies action := by
      have : r ∈ (evaluate_policies st.policies action).filter (fun x => !x.compliant) := by
        rw [h]; exact List.mem_singleton.mpr rfl
      exact List.mem_of_mem_filter this
    exact evaluate_policies_policy_id st.policies action r hr

/-- Witness for C1 at a concrete detector: one compliant and one
violated policy. -/
theorem detect_single_violation_witness :
    ((evaluate_policies sampleDetector.policies sampleAction).filter (fun x => !x.compliant)
        = [{ compliant := false, message := some "write forbidden", policy_id := "p-bad" }]) ∧
    ∃ c : Conflict,
      (detect sampleDetector "agent-1" sampleAction).2 = [c] ∧
      c.policy_id = "p-bad" ∧
      c.related_agent_id = "agent-1" ∧
      dictGet (detect sampleDetector "agent-1" sampleAction).1.conflicts c.conflict_id = some c ∧
      ∃ p ∈ sampleDetector.policies, "p-bad" = p.policy_id :=
  ⟨by decide,
   detect_single_violation sampleDetector "agent-1" sampleAction
     { compliant := false, message := some "write forbidden", policy_id := "p-bad" } (by decide)⟩

/-- C2: for every action on which every policy evaluation result is
compliant, `detect` returns the empty list (it is total, so no error is
raised) and the stored conflict dict is exactly what it was before the
call. -/
theorem detect_all_compliant (st : DetectorState) (agent_id : String) (action : Action)
    (h : ∀ r ∈ evaluate_policies st.policies action, r.compliant = true) :
    (detect st agent_id action).2 = [] ∧
    (detect st agent_id action).1.conflicts = st.conflicts := by
  unfold detect
  rw [detectLoop_all_compliant agent_id action _ st [] h]
  exact ⟨rfl, rfl⟩

/-- Witness for C2 at a concrete detector and a compliant action. -/
theorem detect_all_compliant_witness :
    (∀ r ∈ evaluate_policies sampleDetector.policies sampleActionRead, r.compliant = true) ∧
    (detect sampleDetector "agent-1" sampleActionRead).2 = [] ∧
    (detect sampleDetector "agent-1" sampleActionRead).1.conflicts = sampleDetector.conflicts :=
  ⟨by decide, detect_all_compliant sampleDetector "agent-1" sampleActionRead (by decide)⟩

/-- C4, counterexample: the store's insertion
(`self._conflicts[conflict.conflict_id] = conflict`, a plain dict
assignment) does not fail on a duplicate id — it silently replaces the
existing entry.  Inserting a different conflict under the already
present id `"c-1"` changes the stored entry. -/
theorem put_duplicate_overwrites_counterexample :
    sampleConflictClash.conflict_id = sampleConflict.conflict_id ∧
    sampleConflictClash ≠ sampleConflict ∧
    dictGet
        (dictInsert [(sampleConflict.conflict_id, sampleConflict)]
          sampleConflictClash.conflict_id sampleConflictClash)
        sampleConflict.conflict_id
      = some sampleConflictClash := by
  refine ⟨rfl, by decide, rfl⟩

/-- C4, amended: inserting a `Conflict` whose `conflict_id` is already
present succeeds and silently replaces the existing entry (there is no
DuplicateConflict error); the store still never holds two conflicts
with the same id — insertion preserves distinctness of the stored
keys. -/
theorem put_replaces_and_keys_distinct (m : List (String × Conflict)) (c : Conflict)
    (h : (m.map Prod.fst).Nodup) :
    dictGet (dictInsert m c.conflict_id c) c.conflict_id = some c ∧
    ((dictInsert m c.conflict_id c).map Prod.fst).Nodup :=
  ⟨dictGet_dictInsert_self c.conflict_id c m, dictInsert_keys_nodup c.conflict_id c m h⟩

/-- Witness for the amended C4 at a store already holding the id being
inserted. -/
theorem put_replaces_and_keys_distinct_witness :
    (([(sampleConflict.conflict_id, sampleConflict)].map Prod.fst).Nodup) ∧
    dictGet
        (dictInsert [(sampleConflict.conflict_id, sampleConflict)]
          sampleConflictClash.conflict_id sampleConflictClash)
        sampleConflictClash.conflict_id
      = some sampleConflictClash ∧
    ((dictInsert [(sampleConflict.conflict_id, sampleConflict)]
        sampleConflictClash.conflict_id sampleConflictClash).map Prod.fst).Nodup :=
  ⟨by decide,
   put_replaces_and_keys_distinct [(sampleConflict.conflict_id, sampleConflict)]
     sampleConflictClash (by decide)⟩

/-- C8: removal is idempotent on absent ids.
`ConflictDetector.resolve_conflict` on an id not in the store is a
no-op (it only logs a warning; it raises nothing, being a total
function), and calling it twice equals calling it once. -/
theorem resolve_conflict_absent_idempotent (st : DetectorState) (conflict_id : String)
    (h : dictGet st.conflicts conflict_id = none) :
    resolve_conflict st conflict_id = st ∧
    resolve_conflict (resolve_conflict st conflict_id) conflict_id
      = resolve_conflict st conflict_id := by
  have hc : dictContains st.conflicts conflict_id = false :=
    dictContains_eq_false_of_dictGet_none conflict_id st.conflicts h
  have h1 : resolve_conflict st conflict_id = st := by
    unfold resolve_conflict
    rw [if_neg (by simp [hc])]
  exact ⟨h1, by rw [h1]; exact h1⟩

/-- Witness for C8 at a loaded store and an absent id. -/
theorem resolve_conflict_absent_idempotent_witness :
    dictGet sampleDetectorLoaded.conflicts "no-such-id" = none ∧
    resolve_conflict sampleDetectorLoaded "no-such-id" = sampleDetectorLoaded ∧
    resolve_conflict (resolve_conflict sampleDetectorLoaded "no-such-id") "no-such-id"
      = resolve_conflict sampleDetectorLoaded "no-such-id" :=
  ⟨by decide, resolve_conflict_absent_idempotent sampleDetectorLoaded "no-such-id" (by decide)⟩

/-- C7: `get_all_conflicts` returns a snapshot.  The reference it hands
out reads as the store's values at call time, and it still reads the
same list after any later mutation of the detector (an insertion via
`detect`, a removal via `resolve_conflict`, or `clear_conflicts`),
because every mutating operation touches only the detector's dict,
never a list previously returned. -/
theorem get_all_conflicts_snapshot (s : Session) (op : MutOp) :
    readList (get_all_conflicts_session s).1 (get_all_conflicts_session s).2
      = some (get_all_conflicts s.det) ∧
    readList (applyMut (get_all_conflicts_session s).1 op) (get_all_conflicts_session s).2
      = some (get_all_conflicts s.det) := by
  have hheap : ∀ (s' : Session) (op' : MutOp), (applyMut s' op').heap = s'.heap := by
    intro s' op'
    cases op' <;> rfl
  have hread : readList (get_all_conflicts_session s).1 (get_all_conflicts_session s).2
      = some (get_all_conflicts s.det) := by
    unfold readList get_all_conflicts_session
    exact List.getElem?_concat_length s.heap (get_all_conflicts s.det)
  refine ⟨hread, ?_⟩
  unfold readList
  rw [hheap]
  exact hread

/-- C6, counterexample: both directions of the claimed equivalence
fail on the code.  A call with malformed top-level input (both
`agent_id` and `action` missing) does not surface a hard failure — the
handler logs the error and returns normally — while a well-formed call
whose action violates a policy aborts: after `detect` returns a
non-empty conflict list, the handler's `event_dispatcher.dispatch`
attribute lookup raises `AttributeError` (`EventDispatcher` defines
only `dispatch_event`). -/
theorem handle_agent_action_counterexample :
    handle_agent_action sampleDetector none none = (sampleDetector, Except.ok ()) ∧
    (handle_agent_action sampleDetector (some "agent-1") (some sampleAction)).2
      = Except.error "AttributeError: EventDispatcher has no attribute dispatch" :=
  ⟨rfl, rfl⟩

/-- C6, amended: a detect/resolve call raises a hard failure to its
caller if and only if the top-level input is well-formed and at least
one conflict is detected — the handler then calls
`event_dispatcher.dispatch`, which `EventDispatcher` does not define,
raising `AttributeError`.  Malformed top-level input (missing or falsy
`agent_id` or `action`) is instead rejected with a logged error and a
normal return that leaves the state unchanged and performs no
detection; errors local to one policy are contained per-item
(evaluation yields one result per registered policy), so a well-formed
fully-compliant action returns normally with an empty result. -/
theorem handle_agent_action_raise_iff (st : DetectorState) (agent_id : Option String)
    (action : Option Action) :
    ((¬ truthyStr agent_id = true ∨ ¬ truthyAction action = true) →
      handle_agent_action st agent_id action = (st, Except.ok ())) ∧
    (truthyStr agent_id = true → truthyAction action = true →
      (detect st (agent_id.getD "") (action.getD [])).2 = [] →
      handle_agent_action st agent_id action
        = ((detect st (agent_id.getD "") (action.getD [])).1, Except.ok ())) ∧
    (truthyStr agent_id = true → truthyAction action = true →
      (detect st (agent_id.getD "") (action.getD [])).2 ≠ [] →
      handle_agent_action st agent_id action
        = ((detect st (agent_id.getD "") (action.getD [])).1,
           Except.error "AttributeError: EventDispatcher has no attribute dispatch")) ∧
    ((∃ e, (handle_agent_action st agent_id action).2 = Except.error e) ↔
      (truthyStr agent_id = true ∧ truthyAction action = true ∧
        (detect st (agent_id.getD "") (action.getD [])).2 ≠ [])) ∧
    (evaluate_policies st.policies (action.getD [])).length = st.policies.length := by
  have hmal : (¬ truthyStr agent_id = true ∨ ¬ truthyAction action = true) →
      handle_agent_action st agent_id action = (st, Except.ok ()) := by
    intro h
    unfold handle_agent_action
    rw [if_pos h]
  have hok : truthyStr agent_id = true → truthyAction action = true →
      (detect st (agent_id.getD "") (action.getD [])).2 = [] →
      handle_agent_action st agent_id action
        = ((detect st (agent_id.getD "") (action.getD [])).1, Except.ok ()) := by
    intro ha hb hc
    unfold handle_agent_action
    rw [if_neg (by simp [ha, hb]), if_neg (by simp [hc])]
  have herr : truthyStr agent_id = true → truthyAction action = true →
      (detect st (agent_id.getD "") (action.getD [])).2 ≠ [] →
      handle_agent_action st agent_id action
        = ((detect st (agent_id.getD "") (action.getD [])).1,
           Except.error "AttributeError: EventDispatcher has no attribute dispatch") := by
    intro ha hb hc
    unfold handle_agent_action
    rw [if_neg (by simp [ha, hb]), if_pos hc]
  refine ⟨hmal, hok, herr, ?_, ?_⟩
  · constructor
    · rintro ⟨e, he⟩
      by_cases ha : truthyStr agent_id = true
      · by_cases hb : truthyAction action = true
        · by_cases hc : (detect st (agent_id.getD "") (action.getD [])).2 = []
          · rw [hok ha hb hc] at he
            exact absurd he (by simp)
          · exact ⟨ha, hb, hc⟩
        · rw [hmal (Or.inr hb)] at he
          exact absurd he (by simp)
      · rw [hmal (Or.inl ha)] at he
        exact absurd he (by simp)
    · rintro ⟨ha, hb, hc⟩
      exact ⟨_, by rw [herr ha hb hc]⟩
  · unfold evaluate_policies
    exact List.length_map _ _

/-- Witness for the amended C6: a malformed call returns normally, and
a well-formed call that detects a conflict raises, at a concrete
detector. -/
theorem handle_agent_action_raise_iff_witness :
    ((¬ truthyStr none = true ∨ ¬ truthyAction (some sampleAction) = true) ∧
      handle_agent_action sampleDetector none (some sampleAction)
        = (sampleDetector, Except.ok ())) ∧
    (truthyStr (some "agent-1") = true ∧ truthyAction (some sampleAction) = true ∧
      (detect sampleDetector "agent-1" sampleAction).2 ≠ [] ∧
      handle_agent_action sampleDetector (some "agent-1") (some sampleAction)
        = ((detect sampleDetector "agent-1" sampleAction).1,
           Except.error "AttributeError: EventDispatcher has no attribute dispatch")) :=
  ⟨⟨Or.inl (by decide),
    (handle_agent_action_raise_iff sampleDetector none (some sampleAction)).1
      (Or.inl (by decide))⟩,
   ⟨by decide, by decide, by decide,
    (handle_agent_action_raise_iff sampleDetector (some "agent-1") (some sampleAction)).2.2.1
      (by decide) (by decide) (by decide)⟩⟩

/-- C9: `EscalationManager.escalate_conflict` never raises to its
caller (it is total: every control path yields `Except.ok`); with no
configured recipients it returns without dispatching, and with
recipients but an escalation method that is neither `"email"` nor
`"sms"` it logs an error and returns without raising. -/
theorem escalate_conflict_never_raises (cfg : EscalationConfig) (c : Conflict) :
    (∃ v, escalate_conflict cfg c = Except.ok v) ∧
    (cfg.escalation_recipients = [] →
      escalate_conflict cfg c = Except.ok EscalationOutcome.noRecipients) ∧
    (cfg.escalation_recipients ≠ [] → cfg.escalation_method ≠ "email" →
      cfg.escalation_method ≠ "sms" →
      escalate_conflict cfg c
        = Except.ok (EscalationOutcome.unsupportedMethod cfg.escalation_method)) := by
  refine ⟨?_, ?_, ?_⟩
  · unfold escalate_conflict
    by_cases h1 : cfg.escalation_recipients = []
    · rw [if_pos h1]; exact ⟨_, rfl⟩
    · rw [if_neg h1]
      by_cases h2 : cfg.escalation_method = "email"
      · rw [if_pos h2]; exact ⟨_, rfl⟩
      · rw [if_neg h2]
        by_cases h3 : cfg.escalation_method = "sms"
        · rw [if_pos h3]; exact ⟨_, rfl⟩
        · rw [if_neg h3]; exact ⟨_, rfl⟩
  · intro h1
    unfold escalate_conflict
    rw [if_pos h1]
  · intro h1 h2 h3
    unfold escalate_conflict
    rw [if_neg h1, if_neg h2, if_neg h3]

/-- Witness for C9: the empty-recipients no-op and the unsupported
`"carrier-pigeon"` method, at concrete configurations. -/
theorem escalate_conflict_never_raises_witness :
    (sampleCfgNobody.escalation_recipients = [] ∧
      escalate_conflict sampleCfgNobody sampleConflict
        = Except.ok EscalationOutcome.noRecipients) ∧
    (sampleCfgPigeon.escalation_recipients ≠ [] ∧
      sampleCfgPigeon.escalation_method ≠ "email" ∧
      sampleCfgPigeon.escalation_method ≠ "sms" ∧
      escalate_conflict sampleCfgPigeon sampleConflict
        = Except.ok (EscalationOutcome.unsupportedMethod "carrier-pigeon")) :=
  ⟨⟨by decide,
    (escalate_conflict_never_raises sampleCfgNobody sampleConflict).2.1 (by decide)⟩,
   ⟨by decide, by decide, by decide,
    (escalate_conflict_never_raises sampleCfgPigeon sampleConflict).2.2
      (by decide) (by decide) (by decide)⟩⟩

/-- The dispatch loop runs every remaining listener, each on the world
left by its predecessor, and collects exactly the exceptions the
listeners raise. -/
theorem dispatchLoop_eq (W : Type) :
    ∀ (ls : List (Listener W)) (w : W) (errs : List String),
      dispatchLoop ls w errs = (worldAfter ls w, errs ++ raisedErrs ls w) := by
  intro ls
  induction ls with
  | nil => intro w errs; simp [dispatchLoop, worldAfter, raisedErrs]
  | cons l rest ih =>
    intro w errs
    have hworld : worldAfter (l :: rest) w = worldAfter rest (l.run w).1 := rfl
    have herrs : raisedErrs (l :: rest) w
        = (l.run w).2.toList ++ raisedErrs rest (l.run w).1 := rfl
    rcases he : l.run w with ⟨w', e⟩
    rw [he] at hworld herrs
    cases e with
    | none =>
      have hstep : dispatchLoop (l :: rest) w errs = dispatchLoop rest w' errs := by
        rw [dispatchLoop, he]
      rw [hstep, ih w' errs, hworld, herrs]
      simp
    | some ex =>
      have hstep : dispatchLoop (l :: rest) w errs = dispatchLoop rest w' (errs ++ [ex]) := by
        rw [dispatchLoop, he]
      rw [hstep, ih w' (errs ++ [ex]), hworld, herrs]
      simp

/-- C10: `EventDispatcher.dispatch_event` invokes every listener
registered for the event type, in order, each on the state left by its
predecessor — even when an earlier listener raises, since each
listener's exception is caught individually (and collected here); the
dispatch itself never propagates an exception (every path is
`Except.ok`), and dispatching an event type with no registered
listeners is a no-op. -/
theorem dispatch_event_runs_all_listeners (W : Type) (d : Dispatcher W) (event_type : String)
    (w : W) :
    dispatch_event d event_type w
      = Except.ok (worldAfter (getListeners d event_type) w,
          raisedErrs (getListeners d event_type) w) ∧
    (getListeners d event_type = [] → dispatch_event d event_type w = Except.ok (w, [])) := by
  have hmain : dispatch_event d event_type w
      = Except.ok (worldAfter (getListeners d event_type) w,
          raisedErrs (getListeners d event_type) w) := by
    unfold dispatch_event
    by_cases h : (getListeners d event_type).isEmpty
    · have hnil : getListeners d event_type = [] := List.isEmpty_iff.mp h
      rw [if_pos h, hnil]
      rfl
    · rw [if_neg h]
      rw [dispatchLoop_eq W (getListeners d event_type) w []]
      simp
  refine ⟨hmain, ?_⟩
  intro h
  rw [hmain, h]
  rfl

/-- Witness for C10: dispatching an event type with no registered
listeners on a concrete dispatcher is a no-op. -/
theorem dispatch_event_runs_all_listeners_witness :
    getListeners sampleDispatcher "unknown_event" = [] ∧
    dispatch_event sampleDispatcher "unknown_event" (5 : Nat) = Except.ok (5, []) :=
  ⟨rfl, (dispatch_event_runs_all_listeners Nat sampleDispatcher "unknown_event" 5).2 rfl⟩

/-! ## Resolution pipeline lemmas -/

/-- An id absent from a list of conflicts never occurs among the ids of
any sublist obtained by filtering. -/
theorem countOcc_filter_zero (p : Conflict → Bool) (t : List Conflict) (k : String)
    (hk : k ∉ t.map fun x => x.conflict_id) :
    countOcc ((t.filter p).map fun x => x.conflict_id) k = 0 := by
  unfold countOcc
  rw [List.countP_eq_zero]
  intro x hx
  rcases List.mem_map.mp hx with ⟨y, hy, hxy⟩
  have hyt : y ∈ t := List.mem_of_mem_filter hy
  simp only [decide_eq_true_eq]
  intro hxk
  apply hk
  rw [← hxk, ← hxy]
  exact List.mem_map_of_mem _ hyt

/-- When the conflicts carry pairwise distinct ids, the number of
occurrences of a member's id among the ids of the filtered sublist is
one when the member passes the filter and zero otherwise. -/
theorem countOcc_map_filter (p : Conflict → Bool) :
    ∀ (l : List Conflict) (c : Conflict),
      ((l.map fun x => x.conflict_id).Nodup) → c ∈ l →
      countOcc ((l.filter p).map fun x => x.conflict_id) c.conflict_id
        = if p c then 1 else 0 := by
  intro l
  induction l with
  | nil => intro c _ hc; exact absurd hc (List.not_mem_nil c)
  | cons a t ih =>
    intro c hn hc
    rw [List.map_cons, List.nodup_cons] at hn
    obtain ⟨ha, hn'⟩ := hn
    rw [List.filter_cons]
    rcases List.mem_cons.mp hc with rfl | hct
    · by_cases hpa : p c
      · rw [if_pos hpa, List.map_cons]
        unfold countOcc
        rw [List.countP_cons]
        have h0 := countOcc_filter_zero p t c.conflict_id ha
        unfold countOcc at h0
        rw [h0]
        simp [hpa]
      · rw [if_neg hpa]
        have h0 := countOcc_filter_zero p t c.conflict_id ha
        rw [h0]
        simp [hpa]
    · have hne : a.conflict_id ≠ c.conflict_id := by
        intro he
        apply ha
        rw [he]
        exact List.mem_map_of_mem _ hct
      by_cases hpa : p a
      · rw [if_pos hpa, List.map_cons]
        unfold countOcc
        rw [List.countP_cons]
        have hrec := ih c hn' hct
        unfold countOcc at hrec
        rw [hrec]
        simp [hne]
      · rw [if_neg hpa]
        exact ih c hn' hct

/-- Folding removals over a list of ids not containing `k` leaves the
lookup of `k` unchanged. -/
theorem dictGet_foldl_resolve (k : String) :
    ∀ (ids : List String) (st : DetectorState), k ∉ ids →
      dictGet (ids.foldl resolve_conflict st).conflicts k = dictGet st.conflicts k := by
  intro ids
  induction ids with
  | nil => intro st _; rfl
  | cons i rest ih =>
    intro st hk
    have hki : i ≠ k := fun he => hk (he ▸ List.mem_cons_self i rest)
    rw [List.foldl_cons]
    rw [ih (resolve_conflict st i) fun hm => hk (List.mem_cons_of_mem i hm)]
    unfold resolve_conflict
    by_cases hcon : dictContains st.conflicts i
    · rw [if_pos hcon]
      exact dictGet_dictRemove_ne i k hki st.conflicts
    · rw [if_neg hcon]

/-- A `false` result of `List.contains` means non-membership. -/
theorem contains_false_not_mem (l : List String) (k : String)
    (h : l.contains k = false) : k ∉ l := by
  simpa using h

/-- C3: for every batch of conflicts with pairwise distinct ids handed
to `resolve_conflicts`, a conflict whose resolution was generated and
successfully applied is escalated zero times, while a conflict that
ends the call unresolved (no resolution generated, or its resolution
failed to apply) is escalated exactly once and, if it was stored,
remains retrievable from the conflict store; in particular a conflict
whose policy has no registered resolution strategy yields zero
resolutions, an unchanged store, and exactly its own escalation. -/
theorem resolve_conflicts_escalates_unresolved (eng : Engine) (st : DetectorState)
    (conflicts : List Conflict)
    (hn : (conflicts.map fun c => c.conflict_id).Nodup) :
    (∀ c ∈ conflicts,
      ((resolvedIds (generate_resolutions eng conflicts)).contains c.conflict_id = true →
        countOcc (resolve_conflicts eng st conflicts).2.2 c.conflict_id = 0) ∧
      ((resolvedIds (generate_resolutions eng conflicts)).contains c.conflict_id = false →
        countOcc (resolve_conflicts eng st conflicts).2.2 c.conflict_id = 1 ∧
        (dictGet st.conflicts c.conflict_id = some c →
          dictGet (resolve_conflicts eng st conflicts).1.conflicts c.conflict_id = some c))) ∧
    (∀ c : Conflict, findStrategy eng c.policy_id = none →
      resolve_conflicts eng st [c] = (st, [], [c.conflict_id])) := by
  constructor
  · intro c hc
    have hesc : (resolve_conflicts eng st conflicts).2.2
        = ((conflicts.filter fun x =>
              !((resolvedIds (generate_resolutions eng conflicts)).contains x.conflict_id)).map
            fun x => x.conflict_id) := rfl
    have hcount := countOcc_map_filter
      (fun x => !((resolvedIds (generate_resolutions eng conflicts)).contains x.conflict_id))
      conflicts c hn hc
    constructor
    · intro hR
      rw [hesc, hcount]
      have hmem : c.conflict_id ∈ resolvedIds (generate_resolutions eng conflicts) := by
        simpa using hR
      simp [hmem]
    · intro hR
      constructor
      · rw [hesc, hcount]
        have hmem : c.conflict_id ∉ resolvedIds (generate_resolutions eng conflicts) :=
          contains_false_not_mem _ _ hR
        simp [hmem]
      · intro hget
        have hst : (resolve_conflicts eng st conflicts).1
            = (resolvedIds (generate_resolutions eng conflicts)).foldl resolve_conflict st :=
          rfl
        rw [hst]
        rw [dictGet_foldl_resolve c.conflict_id _ st (contains_false_not_mem _ _ hR)]
        exact hget
  · intro c hs
    have hgen : generate_resolutions eng [c] = [] := by
      unfold generate_resolutions
      simp [hs]
    show (_, generate_resolutions eng [c], _) = _
    simp only [resolve_conflicts, hgen]
    rfl

/-- Witness for C3: a conflict with no registered strategy, on a store
holding it — zero resolutions, same store, exactly one escalation. -/
theorem resolve_conflicts_escalates_unresolved_witness :
    (([sampleConflict].map fun c => c.conflict_id).Nodup) ∧
    resolve_conflicts sampleEngineEmpty sampleDetectorLoaded [sampleConflict]
      = (sampleDetectorLoaded, [], [sampleConflict.conflict_id]) :=
  ⟨by decide,
   (resolve_conflicts_escalates_unresolved sampleEngineEmpty sampleDetectorLoaded
       [sampleConflict] (by decide)).2 sampleConflict rfl⟩

/-- C5: `resolve_conflicts` returns at most one resolution per input
conflict, and every returned resolution's `conflict_id` is the id of
one of the input conflicts. -/
theorem resolve_conflicts_conservation (eng : Engine) (st : DetectorState)
    (conflicts : List Conflict) :
    (resolve_conflicts eng st conflicts).2.1.length ≤ conflicts.length ∧
    ∀ r ∈ (resolve_conflicts eng st conflicts).2.1,
      ∃ c ∈ conflicts, r.conflict_id = c.conflict_id := by
  have hres : (resolve_conflicts eng st conflicts).2.1 = generate_resolutions eng conflicts :=
    rfl
  constructor
  · rw [hres]
    unfold generate_resolutions
    exact List.length_filterMap_le _ _
  · intro r hr
    rw [hres] at hr
    unfold generate_resolutions at hr
    rcases List.mem_filterMap.mp hr with ⟨c, hc, hfc⟩
    refine ⟨c, hc, ?_⟩
    cases hs : findStrategy eng c.policy_id with
    | none => rw [hs] at hfc; simp at hfc
    | some s =>
      rw [hs, Option.map_some'] at hfc
      rw [← Option.some.inj hfc]

/-- Witness for C5 at a concrete batch. -/
theorem resolve_conflicts_conservation_witness :
    (resolve_conflicts sampleEngineEmpty sampleDetectorLoaded [sampleConflict]).2.1.length
      ≤ [sampleConflict].length :=
  (resolve_conflicts_conservation sampleEngineEmpty sampleDetectorLoaded [sampleConflict]).1

end Ovadare
